import Mathlib

/-!
Shallow embedding of the real-time session/room coordination layer of the
ESCAPE2.0 backend (`backend/app/websocket/handler.py`), together with
theorems settling the specification claims about it.

Modelling conventions:
- A connection is its transport-assigned identifier (`Sid := String`).
- Python payload fields read with `data.get(k)` are `Option String`
  (`none` models a missing key / Python `None`); `data.get(k, d)` is
  `(·.getD d)`.
- Python truthiness of an optional string (`if session_id:`) is
  `pyTruthy`: `None` and `""` are falsy, every other string truthy.
- Python f-string interpolation renders `None` as the string `"None"`
  (`pyStr`).
- The `socketio` transport is modelled explicitly: `connected` is the set
  of live connections, `srooms` the server-side named-room membership
  (`sio.enter_room` adds, a transport disconnect removes the connection
  from every room).  `sio.emit` with `room=r, skip_sid=s` reaches every
  live member of room `r` except `s`, each exactly once; `room=None`
  reaches every live connection; `to=sid` reaches only `sid` (if live).
- The module dictionaries `player_info` and `active_sessions` of
  `handler.py` are the fields of the same names; `active_sessions` keys
  can be Python `None` (a join with a missing `sessionId`), hence the
  `Option String` key type, and key presence (`k in active_sessions`)
  is distinguished from an empty set via `Option (Finset Sid)`.
- Each handler returns the successor state and the list of messages it
  emits, in emission order.
-/

/-- A transport connection identifier (socket.io `sid`). -/
abbrev Sid := String

/-- Python truthiness of an optional string: `None` and `""` are falsy. -/
def pyTruthy : Option String → Bool
  | none => false
  | some s => s ≠ ""

/-- Python f-string rendering of an optional string: `None` prints as "None". -/
def pyStr : Option String → String
  | none => "None"
  | some s => s

/-- The announcement stored in `player_info[sid]` by `joinSession`:
`{'sessionId': ..., 'room': ..., 'playerName': ...}`.  `sessionId` and
`room` come from `data.get` and may be `None`; `playerName` is defaulted
to `'Guest'` before storage. -/
structure PlayerRec where
  sessionId : Option String
  room : Option String
  playerName : String
deriving DecidableEq, Repr

/-- Payload of a `joinSession` event: the fields the handler reads via
`data.get('sessionId')`, `data.get('room')`, `data.get('playerName', 'Guest')`. -/
structure JoinData where
  sessionId : Option String
  room : Option String
  playerName : Option String
deriving DecidableEq, Repr

/-- Payload of a `playerAction` event: the fields the handler reads. -/
structure ActionData where
  sessionId : Option String
  room : Option String
  playerName : Option String
  action : Option String
  target : Option String
deriving DecidableEq, Repr

/-- Global server state: socket.io transport state (`connected`, `srooms`)
plus the two module-level dictionaries of `handler.py`
(`player_info`, `active_sessions`). -/
structure ServerState where
  connected : Finset Sid
  srooms : String → Finset Sid
  player_info : Sid → Option PlayerRec
  active_sessions : Option String → Option (Finset Sid)

/-- Messages emitted by the handlers, with their routing information.
`room` fields of type `Option String` carry the `room=` argument of
`sio.emit` (Python `None` broadcasts to every connection); `skip` is
`skip_sid`; `to` the private recipient. -/
inductive Msg where
  | sessionState (dest : Sid) (objectStates : List (String × String))
      (completed : List String) (currentPuzzle : Option String)
  | playerJoined (room : Option String) (skip : Sid)
      (playerName : String) (roomField : Option String)
  | playerLeft (room : Option String) (playerName : String)
      (roomField : Option String)
  | actionSuccess (dest : Sid) (message : String)
      (target : Option String) (newState : String)
  | globalStateUpdate (room : Option String) (skip : Sid)
      (target : Option String) (newState : String)
      (updatedBy : String) (roomField : Option String)
deriving DecidableEq, Repr

/-- The fixed snapshot hard-coded in `joinSession` (`initial_state['objectStates']`),
in the source's key order. -/
def defaultObjectStates : List (String × String) :=
  [("forno", "off"), ("frigo", "off"), ("cassetto", "chiuso"),
   ("valvola_gas", "chiusa"), ("finestra", "chiusa")]

/-- `sio.enter_room sid room`: for a string room, add `sid` to it;
`enter_room(sid, None)` targets the manager's global room, which already
contains every connected client, hence a no-op on `srooms`. -/
def enterRoom (rooms : String → Finset Sid) (sid : Sid) :
    Option String → String → Finset Sid
  | none => rooms
  | some r => fun x => if x = r then insert sid (rooms r) else rooms x

/-- The set of members in `active_sessions[k]`, an absent key reading as empty. -/
def membOf (σ : ServerState) (k : Option String) : Finset Sid :=
  (σ.active_sessions k).getD ∅

/-- `joinSession(sid, data)` from `handler.py`: store the announcement in
`player_info`, add `sid` to `active_sessions[session_id]` (creating the
set if the key is absent), enter the session room and the
`f"{session_id}:{room}"` sub-room, emit `playerJoined` to the session
room excluding the caller, then emit the hard-coded `sessionState`
privately to the caller.  Returns the new state and the messages in
emission order. -/
def joinSession (σ : ServerState) (sid : Sid) (data : JoinData) :
    ServerState × List Msg :=
  let session_id := data.sessionId
  let room := data.room
  let player_name := data.playerName.getD "Guest"
  let pinfo := fun s => if s = sid then some ⟨session_id, room, player_name⟩
                        else σ.player_info s
  let seeded := (σ.active_sessions session_id).getD ∅
  let sessions := fun k => if k = session_id then some (insert sid seeded)
                           else σ.active_sessions k
  let rooms1 := enterRoom σ.srooms sid session_id
  let rooms2 := enterRoom rooms1 sid (some (pyStr session_id ++ ":" ++ pyStr room))
  (⟨σ.connected, rooms2, pinfo, sessions⟩,
   [Msg.playerJoined session_id sid player_name room,
    Msg.sessionState sid defaultObjectStates [] none])

/-- The conditional expression on line 98 of `handler.py` resolving an
action token to the element's new state (the action field may be absent,
i.e. Python `None`, which matches none of the three literals). -/
def resolveAction (action : Option String) : String :=
  if action = some "on" then "on"
  else if action = some "open" then "aperto"
  else if action = some "off" then "off"
  else "chiuso"

/-- `playerAction(sid, data)` from `handler.py`: resolve the new state,
emit `actionSuccess` privately to the caller, then emit
`globalStateUpdate` to the session room excluding the caller.  No server
state is touched. -/
def playerAction (σ : ServerState) (sid : Sid) (data : ActionData) :
    ServerState × List Msg :=
  let new_state := resolveAction data.action
  (σ,
   [Msg.actionSuccess sid (pyStr data.target ++ " " ++ pyStr data.action)
      data.target new_state,
    Msg.globalStateUpdate data.sessionId sid data.target new_state
      (data.playerName.getD "Guest") data.room])

/-- The transport-level disconnect event together with the `disconnect`
handler of `handler.py`.  The transport removes `sid` from `connected`
(its socket is closed before the handler runs) and from every room.  The
handler: if `sid in player_info`, read the announcement; if its
`sessionId` is truthy and a key of `active_sessions`, discard `sid` from
that membership set and emit `playerLeft` to the session room (no
`skip_sid`); finally delete `player_info[sid]`. -/
def disconnect (σ : ServerState) (sid : Sid) : ServerState × List Msg :=
  let connected1 := σ.connected.erase sid
  let purged := fun r => (σ.srooms r).erase sid
  match σ.player_info sid with
  | none => (⟨connected1, purged, σ.player_info, σ.active_sessions⟩, [])
  | some info =>
    let pinfo1 := fun s => if s = sid then none else σ.player_info s
    if pyTruthy info.sessionId && (σ.active_sessions info.sessionId).isSome then
      let sessions1 := fun k =>
        if k = info.sessionId then (σ.active_sessions k).map (·.erase sid)
        else σ.active_sessions k
      (⟨connected1, purged, pinfo1, sessions1⟩,
       [Msg.playerLeft info.sessionId info.playerName info.room])
    else
      (⟨connected1, purged, pinfo1, σ.active_sessions⟩, [])

/-- An inbound event: transport connect, a `joinSession` message, a
`playerAction` message, or a transport disconnect. -/
inductive Event where
  | connect (sid : Sid)
  | join (sid : Sid) (data : JoinData)
  | act (sid : Sid) (data : ActionData)
  | disc (sid : Sid)
deriving DecidableEq, Repr

/-- One event processed to completion (the single-threaded event loop
handles each event atomically). -/
def step (σ : ServerState) : Event → ServerState × List Msg
  | .connect sid =>
      (⟨insert sid σ.connected, σ.srooms, σ.player_info, σ.active_sessions⟩, [])
  | .join sid data => joinSession σ sid data
  | .act sid data => playerAction σ sid data
  | .disc sid => disconnect σ sid

/-- Run a list of events from a state, discarding emitted messages. -/
def run (σ : ServerState) : List Event → ServerState
  | [] => σ
  | e :: es => run (step σ e).1 es

/-- The initial server state: no connections, empty rooms and dictionaries. -/
def initState : ServerState := ⟨∅, fun _ => ∅, fun _ => none, fun _ => none⟩

/-- A state is reachable when some event sequence produces it from the
initial state. -/
def Reachable (σ : ServerState) : Prop := ∃ es, run initState es = σ

/-- The audience of an emit with a `room=` argument, evaluated against a
server state: `room=None` reaches every live connection, `room=r` every
live member of room `r`. -/
def roomSet (σ : ServerState) : Option String → Finset Sid
  | none => σ.connected
  | some r => σ.srooms r ∩ σ.connected

/-- The set of connections a message is delivered to, evaluated against
the state after the triggering transition (delivery requires a live
transport; within one handler no emit changes rooms or connections, so
the post-state audience coincides with the audience at emission time).
Each recipient receives the message exactly once: socket.io iterates the
room membership, in which a connection occurs at most once. -/
def delivered (σ : ServerState) : Msg → Finset Sid
  | .sessionState tgt _ _ _ => if tgt ∈ σ.connected then {tgt} else ∅
  | .playerJoined room skip _ _ => (roomSet σ room).erase skip
  | .playerLeft room _ _ => roomSet σ room
  | .actionSuccess tgt _ _ _ => if tgt ∈ σ.connected then {tgt} else ∅
  | .globalStateUpdate room skip _ _ _ _ => (roomSet σ room).erase skip

/-- Transport-level validity of an event against a state.  socket.io
assigns each connection a globally fresh identifier, so a connecting
`sid` has never appeared before; the consequence this development needs
is that it is not a member of any session's membership set. -/
def okEvent (σ : ServerState) : Event → Prop
  | .connect sid => ∀ k, sid ∉ membOf σ k
  | _ => True

/-- States reachable from `initState` by transport-valid events. -/
inductive Reach : ServerState → Prop where
  | init : Reach initState
  | next (σ : ServerState) (e : Event) : Reach σ → okEvent σ e → Reach (step σ e).1

/-- Invariant: a live member of a session's membership set is in the
session's socket.io room (once joined, a connection leaves the room only
when its transport disconnects, and it leaves `active_sessions` only on
the same occasion or never). -/
def RoomInv (σ : ServerState) : Prop :=
  ∀ (s : String) (c : Sid), c ∈ σ.connected → c ∈ membOf σ (some s) → c ∈ σ.srooms s

/-- Invariant: a registered announcement implies a present
`active_sessions` key holding the announcer. -/
def RegInv (σ : ServerState) : Prop :=
  ∀ (c : Sid) (info : PlayerRec), σ.player_info c = some info →
    ((σ.active_sessions info.sessionId).isSome ∧ c ∈ membOf σ info.sessionId)

/-- Join payload of player Alice into session S1, room kitchen. -/
def joinA : JoinData := ⟨some "S1", some "kitchen", some "Alice"⟩

/-- Join payload of player Bob into session S1, room kitchen. -/
def joinB : JoinData := ⟨some "S1", some "kitchen", some "Bob"⟩

/-- State after connection A arrives. -/
def stateA : ServerState := (step initState (Event.connect "A")).1

/-- State after connection A arrives and joins S1. -/
def stateAJ : ServerState := (step stateA (Event.join "A" joinA)).1

/-- State after A joined S1 and connection B arrives. -/
def stateAJB : ServerState := (step stateAJ (Event.connect "B")).1

/-- State after both A and B joined session S1. -/
def stateAB : ServerState := (step stateAJB (Event.join "B" joinB)).1

/-- State after A joins session S1 then re-joins session S2, then B
arrives and joins S1. -/
def stateGhost : ServerState :=
  run initState
    [Event.connect "A", Event.join "A" joinA,
     Event.join "A" ⟨some "S2", some "bedroom", some "Alice"⟩]

/-- State after A joins the empty-string session identifier and B joins
it as well. -/
def stateEmptyId : ServerState :=
  run initState
    [Event.connect "A", Event.join "A" ⟨some "", some "kitchen", some "Alice"⟩,
     Event.connect "B", Event.join "B" ⟨some "", some "kitchen", some "Bob"⟩]

/-- State after A joins S1 and performs the action `on` on target `forno`,
then B arrives (but has not yet joined). -/
def stateActed : ServerState :=
  run initState
    [Event.connect "A", Event.join "A" joinA,
     Event.act "A" ⟨some "S1", some "kitchen", some "Alice", some "on", some "forno"⟩,
     Event.connect "B"]

lemma enterRoom_mono (rooms : String → Finset Sid) (sid : Sid)
    (k : Option String) (r : String) (c : Sid) (h : c ∈ rooms r) :
    c ∈ enterRoom rooms sid k r := by
  cases k with
  | none => exact h
  | some r0 =>
    by_cases hr : r = r0
    · subst hr
      simp only [enterRoom, if_pos rfl]
      exact Finset.mem_insert_of_mem h
    · simpa only [enterRoom, if_neg hr] using h

lemma enterRoom_self (rooms : String → Finset Sid) (sid : Sid) (r : String) :
    sid ∈ enterRoom rooms sid (some r) r := by
  simp [enterRoom]

lemma joinSession_fields (σ : ServerState) (sid : Sid) (d : JoinData) :
    (joinSession σ sid d).1.connected = σ.connected ∧
    membOf (joinSession σ sid d).1 d.sessionId = insert sid (membOf σ d.sessionId) ∧
    (∀ k, k ≠ d.sessionId →
      (joinSession σ sid d).1.active_sessions k = σ.active_sessions k) ∧
    (joinSession σ sid d).1.player_info sid =
      some ⟨d.sessionId, d.room, d.playerName.getD "Guest"⟩ ∧
    (∀ c, c ≠ sid → (joinSession σ sid d).1.player_info c = σ.player_info c) := by
  refine ⟨rfl, ?_, ?_, by simp [joinSession], ?_⟩
  · simp [joinSession, membOf]
  · intro k hk
    simp [joinSession, hk]
  · intro c hc
    simp [joinSession, hc]

lemma joinSession_srooms_mono (σ : ServerState) (sid : Sid) (d : JoinData)
    (r : String) (c : Sid) (h : c ∈ σ.srooms r) :
    c ∈ (joinSession σ sid d).1.srooms r := by
  exact enterRoom_mono _ _ _ _ _ (enterRoom_mono _ _ _ _ _ h)

lemma joinSession_srooms_self (σ : ServerState) (sid : Sid) (d : JoinData)
    (r : String) (hr : d.sessionId = some r) :
    sid ∈ (joinSession σ sid d).1.srooms r := by
  show sid ∈ enterRoom (enterRoom σ.srooms sid d.sessionId) sid _ r
  exact enterRoom_mono _ _ _ _ _ (hr ▸ enterRoom_self σ.srooms sid r)

lemma disconnect_fields (σ : ServerState) (sid : Sid) :
    (disconnect σ sid).1.connected = σ.connected.erase sid ∧
    (disconnect σ sid).1.srooms = (fun r => (σ.srooms r).erase sid) ∧
    (∀ k, ((disconnect σ sid).1.active_sessions k).isSome =
      (σ.active_sessions k).isSome) ∧
    (∀ k, membOf (disconnect σ sid).1 k = membOf σ k ∨
      membOf (disconnect σ sid).1 k = (membOf σ k).erase sid) ∧
    ((disconnect σ sid).1.player_info sid = none) ∧
    (∀ c, c ≠ sid → (disconnect σ sid).1.player_info c = σ.player_info c) := by
  cases h : σ.player_info sid with
  | none =>
    refine ⟨?_, ?_, fun k => ?_, fun k => Or.inl ?_, ?_, fun c hc => ?_⟩ <;>
      simp [disconnect, h, membOf]
  | some info =>
    by_cases hg : (pyTruthy info.sessionId && (σ.active_sessions info.sessionId).isSome) = true
    · have hg12 : pyTruthy info.sessionId = true ∧
          (σ.active_sessions info.sessionId).isSome = true := by
        rw [Bool.and_eq_true] at hg
        exact hg
      obtain ⟨hg1, hg2⟩ := hg12
      refine ⟨?_, ?_, fun k => ?_, fun k => ?_, ?_, fun c hc => ?_⟩
      · simp [disconnect, h, hg, hg1, hg2]
      · simp [disconnect, h, hg, hg1, hg2]
      · by_cases hk : k = info.sessionId <;> simp [disconnect, h, hg, hg1, hg2, hk]
      · by_cases hk : k = info.sessionId
        · rw [hk]
          cases hs : σ.active_sessions info.sessionId with
          | none => exact Or.inl (by simp [disconnect, h, hg, hg1, hg2, membOf, hs])
          | some set0 => exact Or.inr (by simp [disconnect, h, hg, hg1, hg2, membOf, hs])
        · exact Or.inl (by simp [disconnect, h, hg, hg1, hg2, membOf, hk])
      · simp [disconnect, h, hg, hg1, hg2]
      · simp [disconnect, h, hg, hg1, hg2, hc]
    · refine ⟨?_, ?_, fun k => ?_, fun k => Or.inl ?_, ?_, fun c hc => ?_⟩
      · simp [disconnect, h, hg]
      · simp [disconnect, h, hg]
      · simp [disconnect, h, hg]
      · simp [disconnect, h, hg, membOf]
      · simp [disconnect, h, hg]
      · simp [disconnect, h, hg, hc]

lemma roomInv_step (σ : ServerState) (e : Event) (hok : okEvent σ e)
    (h : RoomInv σ) : RoomInv (step σ e).1 := by
  cases e with
  | connect sid =>
    intro s c hc hm
    simp only [step] at hc hm
    rcases Finset.mem_insert.mp hc with hcs | hcs
    · exact absurd hm (hcs ▸ hok (some s))
    · exact h s c hcs hm
  | join sid d =>
    intro s c hc hm
    simp only [step] at hc hm ⊢
    by_cases hk : d.sessionId = some s
    · rw [← hk] at hm
      rw [(joinSession_fields σ sid d).2.1] at hm
      rcases Finset.mem_insert.mp hm with hcs | hcs
      · exact hcs ▸ joinSession_srooms_self σ sid d s hk
      · exact joinSession_srooms_mono σ sid d s c (h s c hc (hk ▸ hcs))
    · have hms : membOf (joinSession σ sid d).1 (some s) = membOf σ (some s) := by
        unfold membOf
        rw [(joinSession_fields σ sid d).2.2.1 (some s) (fun he => hk he.symm)]
      rw [hms] at hm
      exact joinSession_srooms_mono σ sid d s c (h s c hc hm)
  | act sid d => exact h
  | disc sid =>
    intro s c hc hm
    simp only [step] at hc hm ⊢
    obtain ⟨hcon, hrooms, _, hsess, _, _⟩ := disconnect_fields σ sid
    rw [hcon] at hc
    have hc2 := Finset.mem_of_mem_erase hc
    have hne : c ≠ sid := Finset.ne_of_mem_erase hc
    have hm2 : c ∈ membOf σ (some s) := by
      rcases hsess (some s) with he | he
      · exact he ▸ hm
      · exact Finset.mem_of_mem_erase (he ▸ hm)
    rw [hrooms]
    exact Finset.mem_erase_of_ne_of_mem hne (h s c hc2 hm2)

lemma regInv_step (σ : ServerState) (e : Event) (h : RegInv σ) :
    RegInv (step σ e).1 := by
  cases e with
  | connect sid =>
    intro c info hinfo
    exact h c info hinfo
  | join sid d =>
    intro c info hinfo
    simp only [step] at hinfo ⊢
    obtain ⟨_, hmm, hother, hself, hoth⟩ := joinSession_fields σ sid d
    by_cases hc : c = sid
    · subst hc
      rw [hself] at hinfo
      obtain rfl := Option.some_injective _ hinfo
      constructor
      · show ((joinSession σ c d).1.active_sessions d.sessionId).isSome
        simp [joinSession]
      · rw [hmm]
        exact Finset.mem_insert_self c _
    · rw [hoth c hc] at hinfo
      obtain ⟨h1, h2⟩ := h c info hinfo
      by_cases hk : info.sessionId = d.sessionId
      · constructor
        · rw [hk]
          simp [joinSession]
        · rw [hk, hmm]
          exact Finset.mem_insert_of_mem (hk ▸ h2)
      · constructor
        · rw [hother info.sessionId hk]
          exact h1
        · unfold membOf
          rw [hother info.sessionId hk]
          exact h2
  | act sid d =>
    intro c info hinfo
    exact h c info hinfo
  | disc sid =>
    intro c info hinfo
    simp only [step] at hinfo ⊢
    obtain ⟨_, _, hiso, hsess, hpself, hpoth⟩ := disconnect_fields σ sid
    by_cases hc : c = sid
    · rw [hc, hpself] at hinfo
      exact absurd hinfo (by simp)
    · rw [hpoth c hc] at hinfo
      obtain ⟨h1, h2⟩ := h c info hinfo
      refine ⟨by rw [hiso]; exact h1, ?_⟩
      rcases hsess info.sessionId with he | he
      · exact he ▸ h2
      · exact he ▸ Finset.mem_erase_of_ne_of_mem hc h2

lemma reach_roomInv (σ : ServerState) (h : Reach σ) : RoomInv σ := by
  induction h with
  | init =>
    intro s c hc _
    simp [initState] at hc
  | next σ0 e h0 hok ih => exact roomInv_step σ0 e hok ih

lemma reach_regInv (σ : ServerState) (h : Reach σ) : RegInv σ := by
  induction h with
  | init =>
    intro c info hinfo
    simp [initState] at hinfo
  | next σ0 e h0 hok ih => exact regInv_step σ0 e ih

lemma reach_stateA : Reach stateA :=
  Reach.next initState (Event.connect "A") Reach.init
    (fun k => by simp [membOf, initState])

lemma reach_stateAJ : Reach stateAJ :=
  Reach.next stateA (Event.join "A" joinA) reach_stateA trivial

lemma reach_stateAJB : Reach stateAJB := by
  refine Reach.next stateAJ (Event.connect "B") reach_stateAJ ?_
  intro k
  by_cases hk : k = some "S1"
  · rw [hk]
    decide
  · simp [stateAJ, stateA, step, joinSession, initState, membOf, joinA, hk]

lemma reach_stateAB : Reach stateAB :=
  Reach.next stateAJB (Event.join "B" joinB) reach_stateAJB trivial

/-- Claim C10: processing a `playerAction` leaves the Connection Registry
(`player_info`) and the Session Membership Index (`active_sessions`) —
indeed the whole server state — unchanged, and emits exactly the
`actionSuccess` and `globalStateUpdate` events; no membership
precondition appears, so this holds also for a sender that never joined
a session. -/
theorem playerAction_frame (σ : ServerState) (sid : Sid) (data : ActionData) :
    (playerAction σ sid data).1.player_info = σ.player_info ∧
    (playerAction σ sid data).1.active_sessions = σ.active_sessions ∧
    (playerAction σ sid data).1 = σ ∧
    (playerAction σ sid data).2 =
      [Msg.actionSuccess sid (pyStr data.target ++ " " ++ pyStr data.action)
         data.target (resolveAction data.action),
       Msg.globalStateUpdate data.sessionId sid data.target
         (resolveAction data.action) (data.playerName.getD "Guest") data.room] :=
  ⟨rfl, rfl, rfl, rfl⟩

/-- Claim C3: the state resolved by a `playerAction` is `resolveAction`
of the action token alone — both emitted messages carry it whatever the
target element is — and `resolveAction` maps `"on"` to `"on"`, `"open"`
to `"aperto"`, `"off"` to `"off"`, and every other token to `"chiuso"`. -/
theorem resolveAction_cases :
    resolveAction (some "on") = "on" ∧
    resolveAction (some "open") = "aperto" ∧
    resolveAction (some "off") = "off" ∧
    (∀ t : Option String, t ≠ some "on" → t ≠ some "open" → t ≠ some "off" →
      resolveAction t = "chiuso") ∧
    (∀ (σ : ServerState) (sid : Sid) (data : ActionData),
      (playerAction σ sid data).2 =
        [Msg.actionSuccess sid (pyStr data.target ++ " " ++ pyStr data.action)
           data.target (resolveAction data.action),
         Msg.globalStateUpdate data.sessionId sid data.target
           (resolveAction data.action) (data.playerName.getD "Guest") data.room]) := by
  refine ⟨rfl, rfl, rfl, ?_, fun σ sid data => rfl⟩
  intro t h1 h2 h3
  simp [resolveAction, h1, h2, h3]

/-- Instance of `resolveAction_cases`: the unknown token `"gira"`, the
empty token and the absent token all resolve to `"chiuso"`. -/
theorem resolveAction_cases_witness :
    resolveAction (some "gira") = "chiuso" ∧
    resolveAction (some "") = "chiuso" ∧
    resolveAction none = "chiuso" :=
  ⟨resolveAction_cases.2.2.2.1 (some "gira") (by decide) (by decide) (by decide),
   resolveAction_cases.2.2.2.1 (some "") (by decide) (by decide) (by decide),
   resolveAction_cases.2.2.2.1 none (by decide) (by decide) (by decide)⟩

/-- Claim C9: joins and actions never fail: for every payload both
handlers produce their two messages (always exactly two, never an
error), and a payload with no `playerName` proceeds under the default
name `"Guest"`, stored in the registry and carried by the broadcasts. -/
theorem payload_defaults (σ : ServerState) (sid : Sid)
    (d : JoinData) (a : ActionData)
    (hd : d.playerName = none) (ha : a.playerName = none) :
    (joinSession σ sid d).1.player_info sid =
      some ⟨d.sessionId, d.room, "Guest"⟩ ∧
    (joinSession σ sid d).2 =
      [Msg.playerJoined d.sessionId sid "Guest" d.room,
       Msg.sessionState sid defaultObjectStates [] none] ∧
    (playerAction σ sid a).2 =
      [Msg.actionSuccess sid (pyStr a.target ++ " " ++ pyStr a.action)
         a.target (resolveAction a.action),
       Msg.globalStateUpdate a.sessionId sid a.target
         (resolveAction a.action) "Guest" a.room] ∧
    (∀ (d2 : JoinData), (joinSession σ sid d2).2.length = 2) ∧
    (∀ (a2 : ActionData), (playerAction σ sid a2).2.length = 2) := by
  refine ⟨?_, ?_, ?_, fun d2 => rfl, fun a2 => rfl⟩
  · simp [joinSession, hd]
  · simp [joinSession, hd]
  · simp [playerAction, ha]

/-- Instance of `payload_defaults`: a join with no `playerName` field
broadcasts the name `"Guest"`. -/
theorem payload_defaults_witness :
    (joinSession initState "A" ⟨some "S1", some "kitchen", none⟩).2 =
      [Msg.playerJoined (some "S1") "A" "Guest" (some "kitchen"),
       Msg.sessionState "A" defaultObjectStates [] none] :=
  (payload_defaults initState "A" ⟨some "S1", some "kitchen", none⟩
    ⟨some "S1", some "kitchen", none, some "on", some "forno"⟩ rfl rfl).2.1

/-- Claim C2 fails as stated: the `sessionState` reply to the first join
into the fresh session identifier `"S1"` carries an `objectStates`
mapping keyed by the source's Italian element names, so it contains none
of the five English keys the claim requires — in particular there is no
`objectStates.oven` to observe. -/
theorem join_reply_lacks_oven_key :
    (joinSession stateA "A" joinA).2 =
      [Msg.playerJoined (some "S1") "A" "Alice" (some "kitchen"),
       Msg.sessionState "A" defaultObjectStates [] none] ∧
    defaultObjectStates.lookup "oven" = none ∧
    defaultObjectStates.lookup "fridge" = none ∧
    defaultObjectStates.lookup "drawer" = none ∧
    defaultObjectStates.lookup "gas_valve" = none ∧
    defaultObjectStates.lookup "window" = none := by
  decide

/-- Claim C2 amended: the reply to every join — a fresh session
identifier included — carries exactly the five keys `forno`, `frigo`,
`cassetto`, `valvola_gas`, `finestra`, valued `"off"`, `"off"`,
`"chiuso"`, `"chiusa"`, `"chiusa"`; a first joiner observes
`objectStates.forno == "off"`. -/
theorem join_reply_italian_defaults (σ : ServerState) (sid : Sid) (d : JoinData) :
    (joinSession σ sid d).2.getLast? =
      some (Msg.sessionState sid defaultObjectStates [] none) ∧
    defaultObjectStates.map Prod.fst =
      ["forno", "frigo", "cassetto", "valvola_gas", "finestra"] ∧
    defaultObjectStates.lookup "forno" = some "off" ∧
    defaultObjectStates.lookup "frigo" = some "off" ∧
    defaultObjectStates.lookup "cassetto" = some "chiuso" ∧
    defaultObjectStates.lookup "valvola_gas" = some "chiusa" ∧
    defaultObjectStates.lookup "finestra" = some "chiusa" :=
  ⟨rfl, by decide, by decide, by decide, by decide, by decide, by decide⟩

/-- Claim C1 fails as stated: after A joins `"S1"` and performs the
action `on` on target `forno` (resolved to `"on"`), a subsequent join by
B into the same session receives the fixed default snapshot, in which
`forno` is still `"off"` — not a snapshot reflecting the prior action. -/
theorem join_after_action_gets_default :
    resolveAction (some "on") = "on" ∧
    (joinSession stateActed "B" joinB).2.getLast? =
      some (Msg.sessionState "B" defaultObjectStates [] none) ∧
    defaultObjectStates.lookup "forno" = some "off" ∧
    (some "off" : Option String) ≠ some "on" := by
  decide

/-- Claim C1 amended: there is no per-session element state store: a
`playerAction` leaves the entire server state unchanged, and the private
`sessionState` reply of every join (or rejoin) carries the fixed default
snapshot whatever actions preceded it. -/
theorem no_store_default_snapshot :
    (∀ (σ : ServerState) (sid : Sid) (a : ActionData),
       (playerAction σ sid a).1 = σ) ∧
    (∀ (σ : ServerState) (sid : Sid) (d : JoinData),
       (joinSession σ sid d).2.getLast? =
         some (Msg.sessionState sid defaultObjectStates [] none)) :=
  ⟨fun _ _ _ => rfl, fun _ _ _ => rfl⟩

/-- Claim C8 fails as stated: the first message `joinSession` emits is
the `playerJoined` broadcast; the private `sessionState` reply comes
second, so the reply is not emitted before the broadcast. -/
theorem join_emits_broadcast_first :
    (joinSession stateA "A" joinA).2.head? =
      some (Msg.playerJoined (some "S1") "A" "Alice" (some "kitchen")) ∧
    (joinSession stateA "A" joinA).2 =
      [Msg.playerJoined (some "S1") "A" "Alice" (some "kitchen"),
       Msg.sessionState "A" defaultObjectStates [] none] := by
  decide

/-- Claim C8 amended: a join registers the announcement on the registry
and adds the caller to the membership set, and its emissions are, in
order, the `playerJoined` broadcast excluding the caller followed by the
private `sessionState` reply — the broadcast precedes the reply. -/
theorem join_effect_order (σ : ServerState) (sid : Sid) (d : JoinData) :
    (joinSession σ sid d).1.player_info sid =
      some ⟨d.sessionId, d.room, d.playerName.getD "Guest"⟩ ∧
    sid ∈ membOf (joinSession σ sid d).1 d.sessionId ∧
    (joinSession σ sid d).2 =
      [Msg.playerJoined d.sessionId sid (d.playerName.getD "Guest") d.room,
       Msg.sessionState sid defaultObjectStates [] none] := by
  refine ⟨(joinSession_fields σ sid d).2.2.2.1, ?_, rfl⟩
  rw [(joinSession_fields σ sid d).2.1]
  exact Finset.mem_insert_self sid _

/-- Claim C5: the code violates the single-membership invariant its own
specification states as intended: after A joins session `"S1"` and then
joins session `"S2"`, A is still in the membership set of `"S1"` while
also in that of `"S2"` — the second join removed nothing. -/
theorem rejoin_leaves_ghost_membership :
    "A" ∈ membOf stateGhost (some "S1") ∧
    "A" ∈ membOf stateGhost (some "S2") ∧
    stateGhost.player_info "A" = some ⟨some "S2", some "bedroom", "Alice"⟩ := by
  decide

/-- Claim C7: disconnect is total and idempotent: with no registered
announcement (a disconnect before any join, or a repeated disconnect)
the handler changes neither `player_info` nor `active_sessions` and
emits no message; and since a first disconnect always clears the
announcement, a second disconnect of the same connection is exactly such
a no-op. -/
theorem disconnect_idempotent (σ : ServerState) (sid : Sid)
    (h : σ.player_info sid = none) :
    (disconnect σ sid).1.player_info = σ.player_info ∧
    (disconnect σ sid).1.active_sessions = σ.active_sessions ∧
    (disconnect σ sid).2 = [] ∧
    (∀ (σ2 : ServerState),
      (disconnect (disconnect σ2 sid).1 sid).1.player_info =
        (disconnect σ2 sid).1.player_info ∧
      (disconnect (disconnect σ2 sid).1 sid).1.active_sessions =
        (disconnect σ2 sid).1.active_sessions ∧
      (disconnect (disconnect σ2 sid).1 sid).2 = []) := by
  have key : ∀ (τ : ServerState), τ.player_info sid = none →
      (disconnect τ sid).1.player_info = τ.player_info ∧
      (disconnect τ sid).1.active_sessions = τ.active_sessions ∧
      (disconnect τ sid).2 = [] := by
    intro τ hτ
    refine ⟨?_, ?_, ?_⟩ <;> simp [disconnect, hτ]
  obtain ⟨k1, k2, k3⟩ := key σ h
  exact ⟨k1, k2, k3, fun σ2 => key _ (disconnect_fields σ2 sid).2.2.2.2.1⟩

/-- Instance of `disconnect_idempotent`: disconnecting the never-joined
connection B emits nothing, and the second disconnect of A after a first
one emits nothing either. -/
theorem disconnect_idempotent_witness :
    (disconnect stateAJ "B").2 = [] ∧
    (disconnect (disconnect stateAJ "A").1 "A").2 = [] :=
  ⟨(disconnect_idempotent stateAJ "B" (by decide)).2.2.1,
   ((disconnect_idempotent initState "A" rfl).2.2.2 stateAJ).2.2⟩

/-- Claim C4: in every reachable state, the broadcast a join emits
(`playerJoined`) and the broadcast an action emits (`globalStateUpdate`)
are never delivered to the acting connection, and are delivered —
exactly once each, `delivered` being a set — to every other live
connection in the target session's membership set. -/
theorem broadcast_skips_actor_reaches_members
    (σ : ServerState) (hσ : Reach σ) (sid : Sid) (d : JoinData) (a : ActionData)
    (mJ mA : Msg)
    (hJ : (joinSession σ sid d).2.head? = some mJ)
    (hA : (playerAction σ sid a).2.getLast? = some mA) :
    sid ∉ delivered (joinSession σ sid d).1 mJ ∧
    (∀ c, c ≠ sid → c ∈ membOf (joinSession σ sid d).1 d.sessionId →
      c ∈ (joinSession σ sid d).1.connected →
      c ∈ delivered (joinSession σ sid d).1 mJ) ∧
    sid ∉ delivered (playerAction σ sid a).1 mA ∧
    (∀ c, c ≠ sid → c ∈ membOf (playerAction σ sid a).1 a.sessionId →
      c ∈ (playerAction σ sid a).1.connected →
      c ∈ delivered (playerAction σ sid a).1 mA) := by
  have hinv := reach_roomInv σ hσ
  have hmJ : mJ =
      Msg.playerJoined d.sessionId sid (d.playerName.getD "Guest") d.room := by
    simpa [joinSession] using hJ.symm
  have hmA : mA = Msg.globalStateUpdate a.sessionId sid a.target
      (resolveAction a.action) (a.playerName.getD "Guest") a.room := by
    simpa [playerAction] using hA.symm
  subst hmJ hmA
  refine ⟨?_, ?_, ?_, ?_⟩
  · exact Finset.not_mem_erase sid _
  · intro c hc hm hcon
    show c ∈ (roomSet (joinSession σ sid d).1 d.sessionId).erase sid
    refine Finset.mem_erase_of_ne_of_mem hc ?_
    rcases hk : d.sessionId with _ | r
    · show c ∈ (joinSession σ sid d).1.connected
      exact hcon
    · have hm2 : c ∈ membOf σ (some r) := by
        have hf := (joinSession_fields σ sid d).2.1
        rw [hk] at hf hm
        rw [hf] at hm
        rcases Finset.mem_insert.mp hm with h1 | h1
        · exact absurd h1 hc
        · exact h1
      have hcon2 : c ∈ σ.connected := by
        rw [(joinSession_fields σ sid d).1] at hcon
        exact hcon
      have hr : c ∈ (joinSession σ sid d).1.srooms r :=
        joinSession_srooms_mono σ sid d r c (hinv r c hcon2 hm2)
      show c ∈ (joinSession σ sid d).1.srooms r ∩ (joinSession σ sid d).1.connected
      exact Finset.mem_inter.mpr ⟨hr, hcon⟩
  · exact Finset.not_mem_erase sid _
  · intro c hc hm hcon
    show c ∈ (roomSet σ a.sessionId).erase sid
    refine Finset.mem_erase_of_ne_of_mem hc ?_
    rcases hk : a.sessionId with _ | r
    · exact hcon
    · rw [hk] at hm
      show c ∈ σ.srooms r ∩ σ.connected
      exact Finset.mem_inter.mpr ⟨hinv r c hcon hm, hcon⟩

/-- Instance of `broadcast_skips_actor_reaches_members`: when B joins S1
while A is a live member, the `playerJoined` broadcast is delivered to A
and not to B; when B then acts in S1, the `globalStateUpdate` broadcast
is likewise delivered to A and not to B. -/
theorem broadcast_skips_actor_witness :
    ("B" ∉ delivered (joinSession stateAJB "B" joinB).1
        (Msg.playerJoined (some "S1") "B" "Bob" (some "kitchen")) ∧
     "A" ∈ delivered (joinSession stateAJB "B" joinB).1
        (Msg.playerJoined (some "S1") "B" "Bob" (some "kitchen"))) ∧
    ("B" ∉ delivered stateAB
        (Msg.globalStateUpdate (some "S1") "B" (some "forno") "on" "Bob"
          (some "kitchen")) ∧
     "A" ∈ delivered stateAB
        (Msg.globalStateUpdate (some "S1") "B" (some "forno") "on" "Bob"
          (some "kitchen"))) := by
  have h1 := broadcast_skips_actor_reaches_members stateAJB reach_stateAJB "B"
      joinB ⟨some "S1", some "kitchen", some "Bob", some "on", some "forno"⟩
      (Msg.playerJoined (some "S1") "B" "Bob" (some "kitchen"))
      (Msg.globalStateUpdate (some "S1") "B" (some "forno") "on" "Bob"
        (some "kitchen")) rfl rfl
  have h2 := broadcast_skips_actor_reaches_members stateAB reach_stateAB "B"
      joinB ⟨some "S1", some "kitchen", some "Bob", some "on", some "forno"⟩
      (Msg.playerJoined (some "S1") "B" "Bob" (some "kitchen"))
      (Msg.globalStateUpdate (some "S1") "B" (some "forno") "on" "Bob"
        (some "kitchen")) rfl rfl
  exact ⟨⟨h1.1, h1.2.1 "A" (by decide) (by decide) (by decide)⟩,
         ⟨h2.2.2.1, h2.2.2.2 "A" (by decide) (by decide) (by decide)⟩⟩

/-- Claim C6 amended (to a non-empty announced session identifier): in
every reachable state, disconnecting a connection registered to session
`s ≠ ""` removes it from that session's membership set, shrinks the
set's cardinality by exactly one, and emits one `playerLeft` notice with
the player's name and room, delivered to every other live member the set
held immediately before the disconnect and not to the departed
connection. -/
theorem disconnect_removes_and_notifies
    (σ : ServerState) (hσ : Reach σ) (sid : Sid) (info : PlayerRec)
    (hreg : σ.player_info sid = some info) (s : String)
    (hs : info.sessionId = some s) (hne : s ≠ "") :
    sid ∉ membOf (disconnect σ sid).1 (some s) ∧
    (membOf σ (some s)).card = (membOf (disconnect σ sid).1 (some s)).card + 1 ∧
    (disconnect σ sid).2 =
      [Msg.playerLeft (some s) info.playerName info.room] ∧
    sid ∉ delivered (disconnect σ sid).1
      (Msg.playerLeft (some s) info.playerName info.room) ∧
    (∀ c, c ∈ membOf σ (some s) → c ≠ sid → c ∈ σ.connected →
      c ∈ delivered (disconnect σ sid).1
        (Msg.playerLeft (some s) info.playerName info.room)) := by
  have hroominv := reach_roomInv σ hσ
  obtain ⟨hiso, hmem⟩ := reach_regInv σ hσ sid info hreg
  have htruthy : pyTruthy info.sessionId = true := by
    rw [hs]
    simp [pyTruthy, hne]
  have hguard : (pyTruthy info.sessionId &&
      (σ.active_sessions info.sessionId).isSome) = true := by
    rw [htruthy, hiso]
    rfl
  rw [hs] at hiso hmem htruthy
  obtain ⟨set0, hset0⟩ := Option.isSome_iff_exists.mp hiso
  have hmem0 : sid ∈ set0 := by
    rw [membOf, hset0] at hmem
    exact hmem
  have hm0 : membOf σ (some s) = set0 := by simp [membOf, hset0]
  have hm1 : membOf (disconnect σ sid).1 (some s) = set0.erase sid := by
    simp [disconnect, hreg, hguard, hs, membOf, hset0, htruthy]
  obtain ⟨hcon, hrooms, _, _, _, _⟩ := disconnect_fields σ sid
  refine ⟨?_, ?_, ?_, ?_, ?_⟩
  · rw [hm1]
    exact Finset.not_mem_erase sid set0
  · rw [hm0, hm1, Finset.card_erase_of_mem hmem0]
    have : 0 < set0.card := Finset.card_pos.mpr ⟨sid, hmem0⟩
    omega
  · simp [disconnect, hreg, hguard, hs, htruthy, hset0]
  · show sid ∉ roomSet (disconnect σ sid).1 (some s)
    intro hx
    have hx2 := (Finset.mem_inter.mp hx).2
    rw [hcon] at hx2
    exact Finset.not_mem_erase sid σ.connected hx2
  · intro c hcm hcne hccon
    show c ∈ roomSet (disconnect σ sid).1 (some s)
    rw [hm0] at hcm
    have h1 : c ∈ σ.srooms s := hroominv s c hccon (hm0 ▸ hcm)
    show c ∈ (disconnect σ sid).1.srooms s ∩ (disconnect σ sid).1.connected
    refine Finset.mem_inter.mpr ⟨?_, ?_⟩
    · simp only [hrooms]
      exact Finset.mem_erase_of_ne_of_mem hcne h1
    · rw [hcon]
      exact Finset.mem_erase_of_ne_of_mem hcne hccon

/-- Instance of `disconnect_removes_and_notifies`: with A and B both
joined to S1, A's disconnect emits one `playerLeft` with Alice's name
and room, delivered to B. -/
theorem disconnect_removes_witness :
    (disconnect stateAB "A").2 =
      [Msg.playerLeft (some "S1") "Alice" (some "kitchen")] ∧
    "B" ∈ delivered (disconnect stateAB "A").1
      (Msg.playerLeft (some "S1") "Alice" (some "kitchen")) := by
  have h := disconnect_removes_and_notifies stateAB reach_stateAB "A"
      ⟨some "S1", some "kitchen", "Alice"⟩ (by decide) "S1" rfl (by decide)
  exact ⟨h.2.2.1, h.2.2.2.2 "B" (by decide) (by decide) (by decide)⟩

/-- Claim C6 fails as stated for the empty session identifier (falsy in
the source's guard): A joined session `""` and B joined it too; A's
disconnect emits no `playerLeft`, leaves A inside the membership set of
`""`, and the set's cardinality does not shrink. -/
theorem empty_session_disconnect_skips_cleanup :
    (disconnect stateEmptyId "A").2 = [] ∧
    "A" ∈ membOf (disconnect stateEmptyId "A").1 (some "") ∧
    (membOf (disconnect stateEmptyId "A").1 (some "")).card =
      (membOf stateEmptyId (some "")).card := by
  decide
